import Mathlib

/-!
Verification of the WideFSM runtime (`src/index.ts`), a finite-state-machine
library over tagged state/event variants.  The embedding below translates the
runtime behaviour of the `Fsm` class: the transition lookup table is an
association list (JS object keys in insertion order), the two listener
registries are insertion-ordered duplicate-free lists (JS `Set`), and
`dispatch` returns the updated machine together with the trace of listener
notifications and an optional error (a thrown `Error` message).  JS heap
references, needed for the `getState`/`structuredClone` deep-copy contract,
are modelled by tagging every object node of a payload with a heap address.
-/

namespace WideFsm

mutual

/-- A JavaScript payload value stored in an FSM state: a primitive (modelled
by its string rendering) or an object node carrying its heap address and its
field values (field names play no role in cloning or mutation semantics and
are elided). -/
inductive JsVal : Type where
  | prim : String → JsVal
  | obj : Nat → JsFields → JsVal

/-- The list of field values of a JS object node. -/
inductive JsFields : Type where
  | nil : JsFields
  | cons : JsVal → JsFields → JsFields

end

mutual

/-- All heap addresses occurring in a value. -/
def JsVal.addrs : JsVal → List Nat
  | .prim _ => []
  | .obj a fs => a :: fs.addrs

/-- All heap addresses occurring in a field list. -/
def JsFields.addrs : JsFields → List Nat
  | .nil => []
  | .cons v rest => v.addrs ++ rest.addrs

end

mutual

/-- Erase heap addresses: two values are structurally equal (JS `toEqual`)
exactly when their stripped forms coincide. -/
def JsVal.strip : JsVal → JsVal
  | .prim s => .prim s
  | .obj _ fs => .obj 0 fs.strip

/-- Erase heap addresses in a field list. -/
def JsFields.strip : JsFields → JsFields
  | .nil => .nil
  | .cons v rest => .cons v.strip rest.strip

end

mutual

/-- `structuredClone` of a value: every object node is re-allocated at a
fresh address, drawn from a counter starting at `n`; returns the copy and the
next unused counter value. -/
def JsVal.clone : JsVal → Nat → JsVal × Nat
  | .prim s, n => (.prim s, n)
  | .obj _ fs, n =>
    let r := fs.clone (n + 1)
    (.obj n r.1, r.2)

/-- `structuredClone` of a field list, threading the address counter. -/
def JsFields.clone : JsFields → Nat → JsFields × Nat
  | .nil, n => (.nil, n)
  | .cons v rest, n =>
    let rv := v.clone n
    let rr := rest.clone rv.2
    (.cons rv.1 rr.1, rr.2)

end

mutual

/-- In-place mutation of the object at heap address `a`: its fields are
replaced by `nf`.  Values not containing address `a` are untouched. -/
def JsVal.mutate : JsVal → Nat → JsFields → JsVal
  | .prim s, _, _ => .prim s
  | .obj b fs, a, nf => if b = a then .obj b nf else .obj b (fs.mutate a nf)

/-- In-place mutation of address `a` inside a field list. -/
def JsFields.mutate : JsFields → Nat → JsFields → JsFields
  | .nil, _, _ => .nil
  | .cons v rest, a, nf => .cons (v.mutate a nf) (rest.mutate a nf)

end

mutual

theorem cloneVal_counter_le : ∀ (v : JsVal) (n : Nat), n ≤ (v.clone n).2
  | .prim _, _ => Nat.le_refl _
  | .obj _ fs, n =>
    Nat.le_trans (Nat.le_succ n) (cloneFields_counter_le fs (n + 1))

theorem cloneFields_counter_le : ∀ (fs : JsFields) (n : Nat), n ≤ (fs.clone n).2
  | .nil, _ => Nat.le_refl _
  | .cons v rest, n =>
    Nat.le_trans (cloneVal_counter_le v n)
      (cloneFields_counter_le rest (v.clone n).2)

end

mutual

theorem cloneVal_addrs_ge :
    ∀ (v : JsVal) (n a : Nat), a ∈ (v.clone n).1.addrs → n ≤ a
  | .prim _, _, _ => fun h => absurd h (List.not_mem_nil _)
  | .obj _ fs, n, a => fun h => by
    simp only [JsVal.clone, JsVal.addrs, List.mem_cons] at h
    rcases h with h | h
    · exact Nat.le_of_eq h.symm
    · exact Nat.le_trans (Nat.le_succ n) (cloneFields_addrs_ge fs (n + 1) a h)

theorem cloneFields_addrs_ge :
    ∀ (fs : JsFields) (n a : Nat), a ∈ (fs.clone n).1.addrs → n ≤ a
  | .nil, _, _ => fun h => absurd h (List.not_mem_nil _)
  | .cons v rest, n, a => fun h => by
    simp only [JsFields.clone, JsFields.addrs, List.mem_append] at h
    rcases h with h | h
    · exact cloneVal_addrs_ge v n a h
    · exact Nat.le_trans (cloneVal_counter_le v n)
        (cloneFields_addrs_ge rest (v.clone n).2 a h)

end

mutual

theorem stripVal_clone : ∀ (v : JsVal) (n : Nat), (v.clone n).1.strip = v.strip
  | .prim _, _ => rfl
  | .obj _ fs, n => by
    simp only [JsVal.clone, JsVal.strip]
    exact congrArg (JsVal.obj 0) (stripFields_clone fs (n + 1))

theorem stripFields_clone :
    ∀ (fs : JsFields) (n : Nat), (fs.clone n).1.strip = fs.strip
  | .nil, _ => rfl
  | .cons v rest, n => by
    simp only [JsFields.clone, JsFields.strip]
    exact congrArg₂ JsFields.cons (stripVal_clone v n)
      (stripFields_clone rest (v.clone n).2)

end

mutual

theorem mutateVal_of_not_mem :
    ∀ (v : JsVal) (a : Nat) (nf : JsFields), a ∉ v.addrs → v.mutate a nf = v
  | .prim _, _, _ => fun _ => rfl
  | .obj b fs, a, nf => fun h => by
    simp only [JsVal.addrs, List.mem_cons, not_or] at h
    simp only [JsVal.mutate, if_neg (fun hba : b = a => h.1 hba.symm)]
    exact congrArg (JsVal.obj b) (mutateFields_of_not_mem fs a nf h.2)

theorem mutateFields_of_not_mem :
    ∀ (fs : JsFields) (a : Nat) (nf : JsFields), a ∉ fs.addrs → fs.mutate a nf = fs
  | .nil, _, _ => fun _ => rfl
  | .cons v rest, a, nf => fun h => by
    simp only [JsFields.addrs, List.mem_append, not_or] at h
    simp only [JsFields.mutate]
    exact congrArg₂ JsFields.cons (mutateVal_of_not_mem v a nf h.1)
      (mutateFields_of_not_mem rest a nf h.2)

end

/-- An FSM state: a JS object with a discriminating `tag` field and payload
fields, carrying its own heap address (`src/index.ts`, `FsmState`). -/
structure FsmState where
  addr : Nat
  tag : String
  fields : JsFields

/-- An FSM event: a tagged variant passed to `dispatch`
(`src/index.ts`, `FsmEvent`). -/
structure FsmEvent where
  tag : String
  fields : JsFields

/-- All heap addresses reachable from a state value: its own address and
those of its payload. -/
def FsmState.stateAddrs (s : FsmState) : List Nat :=
  s.addr :: s.fields.addrs

/-- Address erasure on a state, for structural (`toEqual`) comparison. -/
def FsmState.strip (s : FsmState) : FsmState :=
  ⟨0, s.tag, s.fields.strip⟩

/-- `structuredClone` of a state value: the state object and every nested
payload object are re-allocated at fresh addresses starting from `n`. -/
def FsmState.structuredClone (s : FsmState) (n : Nat) : FsmState :=
  ⟨n, s.tag, (s.fields.clone (n + 1)).1⟩

/-- In-place mutation of the object at address `a` reachable from the state:
its fields are replaced by `nf`. -/
def FsmState.mutate (s : FsmState) (a : Nat) (nf : JsFields) : FsmState :=
  if s.addr = a then ⟨s.addr, s.tag, nf⟩ else ⟨s.addr, s.tag, s.fields.mutate a nf⟩

/-- A transition handler `(current, event) => next`
(`src/index.ts`, `FsmTransition`). -/
def FsmTransition : Type := FsmState → FsmEvent → FsmState

/-- The transition table: state tag → event tag → handler, an association
list in JS-object key insertion order (`src/index.ts`, `TransitionLookup`).
A `Partial` record: an absent key means no entry. -/
def TransitionLookup : Type := List (String × List (String × FsmTransition))

/-- The transition-listener registry: state tag → event tag → `Set` of
listeners in insertion order (`src/index.ts`, `OnTransitionLookup`).
Listener callbacks are identified by a numeric identity (JS reference
equality). -/
def OnTransitionLookup : Type := List (String × List (String × List Nat))

/-- Property read on a JS object modelled as an association list: the first
binding of the key, or `undefined` (`none`). -/
def lookupKey {α : Type} : List (String × α) → String → Option α
  | [], _ => none
  | (k, v) :: rest, key => if k = key then some v else lookupKey rest key

/-- `new Set().add(x)`: insertion-ordered, ignored when already present. -/
def setAdd (s : List Nat) (x : Nat) : List Nat :=
  if x ∈ s then s else s ++ [x]

/-- `Set.delete(x)`: removes `x`, keeping the order of the other elements;
a no-op when `x` is absent. -/
def setDelete (s : List Nat) (x : Nat) : List Nat :=
  s.filter (fun y => y ≠ x)

/-- Update the binding of `key` in place by `g`; when absent, append a new
binding `g dflt` (models JS dynamic property creation followed by in-place
mutation of the bound collection). -/
def updateKey {α : Type} : List (String × α) → String → (α → α) → α → List (String × α)
  | [], key, g, dflt => [(key, g dflt)]
  | (k, v) :: rest, key, g, dflt =>
    if k = key then (k, g v) :: rest else (k, v) :: updateKey rest key g dflt

/-- The `Fsm` class state: current state, transition table and the two
listener registries (`src/index.ts`, class `Fsm`). -/
structure Fsm where
  state : FsmState
  transitions : TransitionLookup
  onStateChangeListeners : List Nat
  onTransitionLookup : OnTransitionLookup

/-- `getState()`: a `structuredClone` of the current state, allocated at
fresh addresses from `n` (`src/index.ts:169`). -/
def Fsm.getState (f : Fsm) (n : Nat) : FsmState :=
  f.state.structuredClone n

/-- `getInternalState()`: the live internal state reference
(`src/index.ts:177`). -/
def Fsm.getInternalState (f : Fsm) : FsmState :=
  f.state

/-- `setInternalState(state)` (`src/index.ts:185`). -/
def Fsm.setInternalState (f : Fsm) (s : FsmState) : Fsm :=
  { f with state := s }

/-- `getTransitionHandler(stateTag, eventTag)` (`src/index.ts:192`): read the
state's entry; when `undefined` return `undefined`, else read the event's
handler. -/
def Fsm.getTransitionHandler (f : Fsm) (stateTag eventTag : String) :
    Option FsmTransition :=
  match lookupKey f.transitions stateTag with
  | none => none
  | some events => lookupKey events eventTag

/-- `isFinalState()` (`src/index.ts:204`): `!events ||
Object.keys(events).length === 0`. -/
def Fsm.isFinalState (f : Fsm) : Bool :=
  match lookupKey f.transitions f.state.tag with
  | none => true
  | some events => events.length == 0

/-- `canDispatch(eventTag)` (`src/index.ts:212`): `!!transition`. -/
def Fsm.canDispatch (f : Fsm) (eventTag : String) : Bool :=
  (f.getTransitionHandler f.state.tag eventTag).isSome

/-- Render a key list as `"a", "b"` (`Object.keys(events).map(tag =>
`"${tag}"`).join(", ")` in the error path of `dispatch`). -/
def quoteJoin (keys : List String) : String :=
  String.intercalate ", " (keys.map (fun t => "\"" ++ t ++ "\""))

/-- The `extraMessage` branch taken when the state's table entry is defined
(`src/index.ts:231`). -/
def validEventsMessage (keys : List String) : String :=
  "Valid events in this state are " ++ quoteJoin keys ++ "."

/-- The `extraMessage` branch taken when the state's table entry is
`undefined` (`src/index.ts:234`). -/
def noTransitionsMessage (stateTag : String) : String :=
  "There are no transitions out of the \"" ++ stateTag ++ "\" state."

/-- The full `Error` message thrown by `dispatch` (`src/index.ts:235`). -/
def mkDispatchErrorMessage (eventTag stateTag extra : String) : String :=
  String.intercalate "\n"
    [ "Fsm tried to dispatch the \"" ++ eventTag ++ "\" while in the \"" ++
        stateTag ++ "\" state but no transitions exist for this combination.",
      extra,
      "You can check if you can dispatch an event by using `canDispatch(event)` to conditionally dispatch it." ]

/-- The error message `dispatch` throws for `event` in the current state:
the `extraMessage` is `validEventsMessage` whenever the state's table entry
is defined (even when empty — an empty JS object is truthy), otherwise
`noTransitionsMessage` (`src/index.ts:229`). -/
def Fsm.invalidTransitionMessage (f : Fsm) (ev : FsmEvent) : String :=
  mkDispatchErrorMessage ev.tag f.state.tag
    (match lookupKey f.transitions f.state.tag with
     | some events => validEventsMessage (events.map Prod.fst)
     | none => noTransitionsMessage f.state.tag)

/-- One listener invocation observed during `dispatch`, identified by the
listener's identity and its arguments. -/
inductive Notification : Type where
  | stateChange : Nat → FsmState → FsmState → Notification
  | transition : Nat → FsmState → FsmEvent → FsmState → Notification

/-- The listener identity carried by a notification. -/
def Notification.id : Notification → Nat
  | .stateChange i _ _ => i
  | .transition i _ _ _ => i

/-- The transition listeners registered for a `(state tag, event tag)` pair:
`onTransitionLookup[stateTag]?.[eventTag]`, empty when either level is
absent (`src/index.ts:252`). -/
def Fsm.transListenersFor (f : Fsm) (stateTag eventTag : String) : List Nat :=
  match lookupKey f.onTransitionLookup stateTag with
  | none => []
  | some evLookup => (lookupKey evLookup eventTag).getD []

/-- The outcome of `dispatch`: the machine afterwards (`this` at return or
at throw), the listener notifications issued, and the thrown error message
when the transition is invalid. -/
structure DispatchResult where
  fsm : Fsm
  notifications : List Notification
  error : Option String

/-- `dispatch(event)` (`src/index.ts:222`): look up the handler for
`(current state tag, event tag)`; when absent throw with the descriptive
message, leaving `this` untouched; when present commit the handler's result
as the new state, then notify every state-change listener with
`(prev, next)` in registration order, then every transition listener for
the `(prev tag, event tag)` pair with `(prev, event, next)` in registration
order. -/
def Fsm.dispatch (f : Fsm) (ev : FsmEvent) : DispatchResult :=
  match f.getTransitionHandler f.state.tag ev.tag with
  | none => ⟨f, [], some (f.invalidTransitionMessage ev)⟩
  | some h =>
    let prevState := f.state
    let next := h prevState ev
    let scNotifs := f.onStateChangeListeners.map
      (fun i => Notification.stateChange i prevState next)
    let trNotifs := (f.transListenersFor prevState.tag ev.tag).map
      (fun i => Notification.transition i prevState ev next)
    ⟨{ f with state := next }, scNotifs ++ trNotifs, none⟩

/-- `onStateChange(callback)` (`src/index.ts:267`): add to the state-change
`Set`.  The returned unsubscribe closure is `Fsm.offStateChange · id`. -/
def Fsm.onStateChange (f : Fsm) (id : Nat) : Fsm :=
  { f with onStateChangeListeners := setAdd f.onStateChangeListeners id }

/-- `offStateChange(callback)` (`src/index.ts:274`): delete from the
state-change `Set`. -/
def Fsm.offStateChange (f : Fsm) (id : Nat) : Fsm :=
  { f with onStateChangeListeners := setDelete f.onStateChangeListeners id }

/-- `getOnTransitionListeners(stateKey, eventKey)` followed by an update of
the returned `Set`: missing levels of the nested lookup are created (as in
the source, even when the subsequent operation is a delete). -/
def Fsm.modifyTransListeners (f : Fsm) (stateTag eventTag : String)
    (g : List Nat → List Nat) : Fsm :=
  { f with onTransitionLookup :=
      (updateKey f.onTransitionLookup stateTag
        (fun evLookup => updateKey evLookup eventTag g []) []) }

/-- `onTransition(stateKey, eventKey, callback)` (`src/index.ts:303`).  The
returned unsubscribe closure is `Fsm.offTransition · stateTag eventTag id`. -/
def Fsm.onTransition (f : Fsm) (stateTag eventTag : String) (id : Nat) : Fsm :=
  f.modifyTransListeners stateTag eventTag (fun s => setAdd s id)

/-- `offTransition(stateKey, eventKey, callback)` (`src/index.ts:324`). -/
def Fsm.offTransition (f : Fsm) (stateTag eventTag : String) (id : Nat) : Fsm :=
  f.modifyTransListeners stateTag eventTag (fun s => setDelete s id)

/-- `clone()` (`src/index.ts:345`): `new Fsm(this.state, this.transitions)`
— same state value, same transition table reference, freshly empty listener
registries. -/
def Fsm.clone (f : Fsm) : Fsm :=
  ⟨f.state, f.transitions, [], []⟩

/-- A JS runtime failure observable from an `Fsm` method: a `TypeError`
from reading a property of `undefined`, or the `Error` deliberately thrown
by `dispatch` for an invalid transition. -/
inductive JsError : Type where
  | typeError : JsError
  | invalidTransition : String → JsError

/-- Property read through a possibly-`undefined` object: reading a property
of `undefined` raises a `TypeError`, otherwise the lookup result (possibly
`undefined`) is produced. -/
def jsGetField {α : Type} (o : Option (List (String × α))) (key : String) :
    Except JsError (Option α) :=
  match o with
  | none => Except.error JsError.typeError
  | some l => Except.ok (lookupKey l key)

/-- `Object.keys` applied to a possibly-`undefined` object. -/
def jsKeys {α : Type} (o : Option (List (String × α))) :
    Except JsError (List String) :=
  match o with
  | none => Except.error JsError.typeError
  | some l => Except.ok (l.map Prod.fst)

/-- `getTransitionHandler` in the defensive semantics: the read
`events[eventTag]` goes through `jsGetField`, guarded by the
`if (!events) return undefined` check of the source. -/
def Fsm.getTransitionHandlerE (f : Fsm) (stateTag eventTag : String) :
    Except JsError (Option FsmTransition) :=
  let events := lookupKey f.transitions stateTag
  match events with
  | none => Except.ok none
  | some _ => jsGetField events eventTag

/-- `canDispatch` in the defensive semantics. -/
def Fsm.canDispatchE (f : Fsm) (eventTag : String) : Except JsError Bool := do
  let t ← f.getTransitionHandlerE f.state.tag eventTag
  return t.isSome

/-- `isFinalState` in the defensive semantics: `Object.keys(events)` is only
reached when the short-circuit `!events ||` has established that `events` is
defined. -/
def Fsm.isFinalStateE (f : Fsm) : Except JsError Bool :=
  let events := lookupKey f.transitions f.state.tag
  match events with
  | none => Except.ok true
  | some _ => do
    let keys ← jsKeys events
    return keys.length == 0

/-- `dispatch` in the defensive semantics: the only failure it can produce
of its own is the invalid-transition `Error`; all property reads are either
on defined objects or behind the source's guards and optional chaining. -/
def Fsm.dispatchE (f : Fsm) (ev : FsmEvent) :
    Except JsError (Fsm × List Notification) := do
  let t ← f.getTransitionHandlerE f.state.tag ev.tag
  match t with
  | none => Except.error (JsError.invalidTransition (f.invalidTransitionMessage ev))
  | some h =>
    let prevState := f.state
    let next := h prevState ev
    let scNotifs := f.onStateChangeListeners.map
      (fun i => Notification.stateChange i prevState next)
    let trNotifs := (f.transListenersFor prevState.tag ev.tag).map
      (fun i => Notification.transition i prevState ev next)
    return ({ f with state := next }, scNotifs ++ trNotifs)

/-- Listener identity `i` is registered somewhere on machine `f`: either in
the state-change `Set` or under some `(state tag, event tag)` key of the
transition registry. -/
def Fsm.registeredIn (f : Fsm) (i : Nat) : Prop :=
  i ∈ f.onStateChangeListeners ∨ ∃ s e, i ∈ f.transListenersFor s e

/-- The unsubscribe closure returned by `onStateChange`
(`() => this.offStateChange(callback)`), as a function of the machine at
invocation time. -/
def unsubscribeStateChange (i : Nat) : Fsm → Fsm :=
  fun g => g.offStateChange i

/-- The unsubscribe closure returned by `onTransition`
(`() => this.offTransition(stateKey, eventKey, callback)`). -/
def unsubscribeTransition (stateTag eventTag : String) (i : Nat) : Fsm → Fsm :=
  fun g => g.offTransition stateTag eventTag i

/-- The `on` state of the two-state toggle fixture (the repository's own
example machine). -/
def toggleOnState : FsmState := ⟨0, "on", JsFields.nil⟩

/-- The `off` state of the toggle fixture. -/
def toggleOffState : FsmState := ⟨1, "off", JsFields.nil⟩

/-- The toggle fixture's transition table. -/
def toggleTransitionLookup : TransitionLookup :=
  [("on", [("switch_off", fun _ _ => toggleOffState),
           ("toggle", fun _ _ => toggleOffState)]),
   ("off", [("switch_on", fun _ _ => toggleOnState),
            ("toggle", fun _ _ => toggleOnState)])]

/-- A toggle machine currently `off`, with no listeners. -/
def toggleFsm : Fsm := ⟨toggleOffState, toggleTransitionLookup, [], []⟩

/-- The `switch_on` event of the toggle fixture. -/
def switchOnEvent : FsmEvent := ⟨"switch_on", JsFields.nil⟩

/-- The `switch_off` event of the toggle fixture. -/
def switchOffEvent : FsmEvent := ⟨"switch_off", JsFields.nil⟩

/-- A machine whose current state `idle` has a table entry that is present
but empty. -/
def emptyEntryFsm : Fsm := ⟨⟨0, "idle", JsFields.nil⟩, [("idle", [])], [], []⟩

/-- An event tag with no handler anywhere. -/
def goEvent : FsmEvent := ⟨"go", JsFields.nil⟩

/-- The toggle machine with a state-change listener (identity 7) and a
transition listener (identity 9) for the `("off", "switch_on")` pair. -/
def listenerFsm : Fsm :=
  (toggleFsm.onStateChange 7).onTransition "off" "switch_on" 9

/-- A machine whose state carries a nested payload object: address 0 is the
state object itself, address 1 a payload object inside it. -/
def payloadFsm : Fsm :=
  ⟨⟨0, "on", JsFields.cons (JsVal.obj 1 JsFields.nil) JsFields.nil⟩, [], [], []⟩

theorem setAdd_mem_self (s : List Nat) (x : Nat) : x ∈ setAdd s x := by
  unfold setAdd
  by_cases h : x ∈ s
  · simp [h]
  · simp [h]

theorem setAdd_of_mem {s : List Nat} {x : Nat} (h : x ∈ s) : setAdd s x = s := by
  simp [setAdd, h]

theorem setDelete_of_not_mem {s : List Nat} {x : Nat} (h : x ∉ s) :
    setDelete s x = s := by
  unfold setDelete
  refine List.filter_eq_self.mpr ?_
  intro a ha
  have : a ≠ x := fun he => h (he ▸ ha)
  simpa using this

theorem setDelete_idem (s : List Nat) (x : Nat) :
    setDelete (setDelete s x) x = setDelete s x := by
  unfold setDelete
  rw [List.filter_filter]
  simp

theorem lookupKey_updateKey_self {α : Type} (l : List (String × α)) (key : String)
    (g : α → α) (dflt : α) :
    lookupKey (updateKey l key g dflt) key = some (g ((lookupKey l key).getD dflt)) := by
  induction l with
  | nil => simp [updateKey, lookupKey]
  | cons p rest ih =>
    obtain ⟨k, v⟩ := p
    by_cases h : k = key
    · simp [updateKey, lookupKey, h]
    · simp [updateKey, lookupKey, h, ih]

theorem lookupKey_updateKey_other {α : Type} (l : List (String × α))
    (key key' : String) (g : α → α) (dflt : α) (h : key' ≠ key) :
    lookupKey (updateKey l key g dflt) key' = lookupKey l key' := by
  induction l with
  | nil =>
    have hne : ¬key = key' := fun he => h he.symm
    simp [updateKey, lookupKey, hne]
  | cons p rest ih =>
    obtain ⟨k, v⟩ := p
    by_cases hk : k = key
    · subst hk
      have hne : ¬k = key' := fun he => h he.symm
      simp [updateKey, lookupKey, hne]
    · simp [updateKey, lookupKey, hk, ih]

theorem updateKey_updateKey {α : Type} (l : List (String × α)) (key : String)
    (g₁ g₂ : α → α) (dflt : α) :
    updateKey (updateKey l key g₁ dflt) key g₂ dflt =
      updateKey l key (fun v => g₂ (g₁ v)) dflt := by
  induction l with
  | nil => simp [updateKey]
  | cons p rest ih =>
    obtain ⟨k, v⟩ := p
    by_cases h : k = key
    · simp [updateKey, h]
    · simp [updateKey, h, ih]

theorem transListenersFor_eq_getD (f : Fsm) (s e : String) :
    f.transListenersFor s e =
      (lookupKey ((lookupKey f.onTransitionLookup s).getD []) e).getD [] := by
  unfold Fsm.transListenersFor
  cases lookupKey f.onTransitionLookup s with
  | none => simp [lookupKey]
  | some evLookup => simp

theorem modify_transListenersFor_self (f : Fsm) (s e : String)
    (g : List Nat → List Nat) :
    (f.modifyTransListeners s e g).transListenersFor s e =
      g (f.transListenersFor s e) := by
  rw [transListenersFor_eq_getD, transListenersFor_eq_getD]
  show (lookupKey ((lookupKey
      (updateKey f.onTransitionLookup s
        (fun evLookup => updateKey evLookup e g []) []) s).getD []) e).getD [] = _
  rw [lookupKey_updateKey_self]
  simp [lookupKey_updateKey_self]

theorem modify_transListenersFor_other (f : Fsm) (s e s' e' : String)
    (g : List Nat → List Nat) (h : s' ≠ s ∨ e' ≠ e) :
    (f.modifyTransListeners s e g).transListenersFor s' e' =
      f.transListenersFor s' e' := by
  rw [transListenersFor_eq_getD, transListenersFor_eq_getD]
  show (lookupKey ((lookupKey
      (updateKey f.onTransitionLookup s
        (fun evLookup => updateKey evLookup e g []) []) s').getD []) e').getD [] = _
  by_cases hs : s' = s
  · subst hs
    rcases h with h | h
    · exact absurd rfl h
    · rw [lookupKey_updateKey_self]
      simp [lookupKey_updateKey_other _ _ _ _ _ h]
  · rw [lookupKey_updateKey_other _ _ _ _ _ hs]

/-- C1: `canDispatch(event.tag)` is true exactly when `dispatch(event)`
does not fail, and both are decided by the same `getTransitionHandler`
lookup for the (current state tag, event tag) pair. -/
theorem canDispatch_iff_dispatch_ok (f : Fsm) (ev : FsmEvent) :
    (f.canDispatch ev.tag = true ↔ (f.dispatch ev).error = none) ∧
    f.canDispatch ev.tag = (f.getTransitionHandler f.state.tag ev.tag).isSome ∧
    ((f.dispatch ev).error = none ↔
      (f.getTransitionHandler f.state.tag ev.tag).isSome = true) := by
  unfold Fsm.canDispatch Fsm.dispatch
  cases h : f.getTransitionHandler f.state.tag ev.tag <;> simp

/-- C2: when no handler exists for the (current state tag, event tag) pair,
`dispatch` fails with the invalid-transition error, the machine afterwards
is exactly the machine before (same state, table and registries), and no
state-change or transition listener is notified — failure is all-or-nothing. -/
theorem dispatch_no_handler_all_or_nothing (f : Fsm) (ev : FsmEvent)
    (h : f.getTransitionHandler f.state.tag ev.tag = none) :
    f.dispatch ev = ⟨f, [], some (f.invalidTransitionMessage ev)⟩ := by
  unfold Fsm.dispatch
  rw [h]

/-- C2 witness: the toggle machine in the `off` state cannot take
`switch_off`; dispatching it fails, changes nothing and notifies nobody. -/
theorem dispatch_no_handler_all_or_nothing_witness :
    toggleFsm.dispatch switchOffEvent =
      ⟨toggleFsm, [], some (toggleFsm.invalidTransitionMessage switchOffEvent)⟩ :=
  dispatch_no_handler_all_or_nothing toggleFsm switchOffEvent rfl

/-- C3: a successful dispatch commits exactly the handler's result (applied
to the previous state and the event) as the new state — a replacement — and
notifies all state-change listeners in registration order with
`(prev, next)`, followed, strictly after, by the transition listeners of the
exact `(prev tag, event tag)` pair in registration order with
`(prev, event, next)`. -/
theorem dispatch_success_commit_and_notify (f : Fsm) (ev : FsmEvent)
    (h : FsmTransition)
    (hh : f.getTransitionHandler f.state.tag ev.tag = some h) :
    f.dispatch ev =
      ⟨{ f with state := h f.state ev },
       f.onStateChangeListeners.map
         (fun i => Notification.stateChange i f.state (h f.state ev)) ++
       (f.transListenersFor f.state.tag ev.tag).map
         (fun i => Notification.transition i f.state ev (h f.state ev)),
       none⟩ := by
  unfold Fsm.dispatch
  rw [hh]

/-- C3 witness: the machine with listeners 7 (state-change) and 9
(transition on `("off", "switch_on")`) dispatches `switch_on` from `off`,
commits `on`, and notifies 7 before 9. -/
theorem dispatch_success_commit_and_notify_witness :
    listenerFsm.dispatch switchOnEvent =
      ⟨{ listenerFsm with state := toggleOnState },
       [Notification.stateChange 7 toggleOffState toggleOnState,
        Notification.transition 9 toggleOffState switchOnEvent toggleOnState],
       none⟩ :=
  dispatch_success_commit_and_notify listenerFsm switchOnEvent
    (fun _ _ => toggleOnState) rfl

/-- C6: `isFinalState()` is true exactly when the transition table has no
entry for the current state's tag, or the entry exists with an empty event
mapping. -/
theorem isFinalState_iff (f : Fsm) :
    f.isFinalState = true ↔
      (lookupKey f.transitions f.state.tag = none ∨
       lookupKey f.transitions f.state.tag = some []) := by
  unfold Fsm.isFinalState
  cases h : lookupKey f.transitions f.state.tag with
  | none => simp
  | some events => simp [List.length_eq_zero]

/-- C10: a final state admits no dispatchable event: whenever
`isFinalState()` is true, `canDispatch` is false for every event tag. -/
theorem isFinalState_canDispatch_false (f : Fsm) (h : f.isFinalState = true) :
    ∀ eventTag, f.canDispatch eventTag = false := by
  intro eventTag
  unfold Fsm.isFinalState at h
  unfold Fsm.canDispatch Fsm.getTransitionHandler
  cases he : lookupKey f.transitions f.state.tag with
  | none => simp [he]
  | some events =>
    rw [he] at h
    have hev : events = [] := by simpa [List.length_eq_zero] using h
    subst hev
    simp [he, lookupKey]

/-- C10 witness: the machine whose `idle` entry is present but empty is in
a final state, and indeed cannot dispatch `go`. -/
theorem isFinalState_canDispatch_false_witness :
    emptyEntryFsm.canDispatch "go" = false :=
  isFinalState_canDispatch_false emptyEntryFsm rfl "go"

/-- C4 counterexample: with the current state's table entry present but
empty, the claim requires the message to take branch (b) ("no transitions
out of…"), but `dispatch` takes branch (a) with an empty list — an empty JS
object is truthy — and the two messages differ. -/
theorem dispatch_error_empty_entry_not_branch_b :
    (emptyEntryFsm.dispatch goEvent).error =
      some (mkDispatchErrorMessage "go" "idle" (validEventsMessage [])) ∧
    mkDispatchErrorMessage "go" "idle" (validEventsMessage []) ≠
      mkDispatchErrorMessage "go" "idle" (noTransitionsMessage "idle") := by
  constructor
  · rfl
  · decide

/-- C4 amended: the thrown message always states the attempted event tag,
the current state tag and the `canDispatch` advice; its extra line lists the
event tags of the state's table entry whenever that entry is present (an
empty list when the entry is empty), and says the state has no outgoing
transitions exactly when the entry is absent. -/
theorem dispatch_error_message_shape (f : Fsm) (ev : FsmEvent)
    (h : f.getTransitionHandler f.state.tag ev.tag = none) :
    (∀ events, lookupKey f.transitions f.state.tag = some events →
      (f.dispatch ev).error = some (mkDispatchErrorMessage ev.tag f.state.tag
        (validEventsMessage (events.map Prod.fst)))) ∧
    (lookupKey f.transitions f.state.tag = none →
      (f.dispatch ev).error = some (mkDispatchErrorMessage ev.tag f.state.tag
        (noTransitionsMessage f.state.tag))) := by
  constructor
  · intro events he
    simp [Fsm.dispatch, h, Fsm.invalidTransitionMessage, he]
  · intro he
    simp [Fsm.dispatch, h, Fsm.invalidTransitionMessage, he]

/-- C4 amended witness: the empty-entry machine produces the branch-(a)
message with an empty event list. -/
theorem dispatch_error_message_shape_witness :
    (emptyEntryFsm.dispatch goEvent).error =
      some (mkDispatchErrorMessage "go" "idle" (validEventsMessage [])) :=
  (dispatch_error_message_shape emptyEntryFsm goEvent rfl).1 [] rfl

/-- C5: `getState` returns a state structurally equal to
`getInternalState` but at a distinct heap reference; the copy is deep — no
heap address of the copy, nested payload objects included, occurs in the
internal state — and hence mutating any object reachable from the copy
leaves the internal state (and so every later `getState`/`getInternalState`
result) unchanged.  `n` is a fresh allocator counter: every address of the
live state is below it. -/
theorem getState_deep_copy (f : Fsm) (n : Nat)
    (hfresh : ∀ a ∈ f.state.stateAddrs, a < n) :
    (f.getState n).strip = f.getInternalState.strip ∧
    (f.getState n).addr ≠ f.getInternalState.addr ∧
    (∀ a ∈ (f.getState n).stateAddrs, a ∉ f.getInternalState.stateAddrs) ∧
    (∀ a ∈ (f.getState n).stateAddrs, ∀ nf,
      f.getInternalState.mutate a nf = f.getInternalState) := by
  have hge : ∀ a ∈ (f.getState n).stateAddrs, n ≤ a := by
    intro a ha
    simp only [Fsm.getState, FsmState.structuredClone, FsmState.stateAddrs,
      List.mem_cons] at ha
    rcases ha with ha | ha
    · exact Nat.le_of_eq ha.symm
    · exact Nat.le_trans (Nat.le_succ n)
        (cloneFields_addrs_ge f.state.fields (n + 1) a ha)
  have hdisj : ∀ a ∈ (f.getState n).stateAddrs, a ∉ f.getInternalState.stateAddrs := by
    intro a ha hmem
    exact absurd (hfresh a hmem) (Nat.not_lt.mpr (hge a ha))
  refine ⟨?_, ?_, hdisj, ?_⟩
  · show (f.state.structuredClone n).strip = f.state.strip
    simp [FsmState.structuredClone, FsmState.strip,
      stripFields_clone f.state.fields (n + 1)]
  · show n ≠ f.state.addr
    intro he
    exact absurd (hfresh f.state.addr (by simp [FsmState.stateAddrs]))
      (by simp [he])
  · intro a ha nf
    have hnot := hdisj a ha
    simp only [Fsm.getInternalState, FsmState.stateAddrs, List.mem_cons,
      not_or] at hnot
    unfold Fsm.getInternalState FsmState.mutate
    rw [if_neg (fun he : f.state.addr = a => hnot.1 he.symm),
      mutateFields_of_not_mem f.state.fields a nf hnot.2]

/-- C5 witness: on the machine with a nested payload object and allocator
counter 5, the copy is structurally equal, reference-distinct, and mutating
the copy's fresh object (address 5) leaves the internal state unchanged. -/
theorem getState_deep_copy_witness :
    (payloadFsm.getState 5).strip = payloadFsm.getInternalState.strip ∧
    (payloadFsm.getState 5).addr ≠ payloadFsm.getInternalState.addr ∧
    payloadFsm.getInternalState.mutate 5 JsFields.nil =
      payloadFsm.getInternalState :=
  ⟨(getState_deep_copy payloadFsm 5 (by decide)).1,
   (getState_deep_copy payloadFsm 5 (by decide)).2.1,
   (getState_deep_copy payloadFsm 5 (by decide)).2.2.2 5 (by decide) JsFields.nil⟩

/-- C7: `clone` shares the transition table, copies the current state value
(same value, not deep-copied), starts with entirely empty listener
registries; a dispatch on the clone therefore notifies no listener at all,
and a dispatch on the original only ever notifies listener identities
registered in the original's own registries — the two machines' listener
sets are independent. -/
theorem clone_shares_table_empty_listeners (f : Fsm) :
    f.clone.transitions = f.transitions ∧
    f.clone.state = f.state ∧
    f.clone.onStateChangeListeners = [] ∧
    f.clone.onTransitionLookup = [] ∧
    (∀ ev, (f.clone.dispatch ev).notifications = []) ∧
    (∀ ev, ∀ nt ∈ (f.dispatch ev).notifications, f.registeredIn nt.id) := by
  refine ⟨rfl, rfl, rfl, rfl, ?_, ?_⟩
  · intro ev
    unfold Fsm.dispatch
    cases f.clone.getTransitionHandler f.clone.state.tag ev.tag with
    | none => rfl
    | some h =>
      show ([] : List Nat).map _ ++
        (Fsm.transListenersFor f.clone _ ev.tag).map _ = []
      simp [Fsm.transListenersFor, Fsm.clone, lookupKey]
  · intro ev nt hnt
    unfold Fsm.dispatch at hnt
    cases hh : f.getTransitionHandler f.state.tag ev.tag with
    | none => rw [hh] at hnt; simp at hnt
    | some h =>
      rw [hh] at hnt
      simp only [List.mem_append, List.mem_map] at hnt
      rcases hnt with ⟨i, hi, hni⟩ | ⟨i, hi, hni⟩
      · exact Or.inl (by rw [← hni]; exact hi)
      · exact Or.inr ⟨f.state.tag, ev.tag, by rw [← hni]; exact hi⟩

/-- C7 witness: the clone of the listener-carrying machine has empty
registries and its dispatch notifies nobody, while the original's dispatch
only notifies identities registered on the original (listener 7, a
state-change listener, in particular). -/
theorem clone_shares_table_empty_listeners_witness :
    listenerFsm.clone.onStateChangeListeners = [] ∧
    listenerFsm.clone.onTransitionLookup = [] ∧
    (listenerFsm.clone.dispatch switchOnEvent).notifications = [] ∧
    listenerFsm.registeredIn
      (Notification.stateChange 7 toggleOffState toggleOnState).id :=
  ⟨(clone_shares_table_empty_listeners listenerFsm).2.2.1,
   (clone_shares_table_empty_listeners listenerFsm).2.2.2.1,
   (clone_shares_table_empty_listeners listenerFsm).2.2.2.2.1 switchOnEvent,
   (clone_shares_table_empty_listeners listenerFsm).2.2.2.2.2 switchOnEvent
     (Notification.stateChange 7 toggleOffState toggleOnState)
     (by exact List.mem_cons_self _ _)⟩

theorem modify_modify (f : Fsm) (s e : String) (g₁ g₂ : List Nat → List Nat) :
    (f.modifyTransListeners s e g₁).modifyTransListeners s e g₂ =
      f.modifyTransListeners s e (fun v => g₂ (g₁ v)) := by
  show ({ f with onTransitionLookup :=
      (updateKey (updateKey f.onTransitionLookup s
          (fun evLookup => updateKey evLookup e g₁ []) []) s
        (fun evLookup => updateKey evLookup e g₂ []) []) } : Fsm) = _
  rw [updateKey_updateKey]
  have hinner : (fun evLookup => updateKey (updateKey evLookup e g₁ []) e g₂ []) =
      fun evLookup : List (String × List Nat) =>
        updateKey evLookup e (fun v => g₂ (g₁ v)) [] :=
    funext fun evLookup => updateKey_updateKey evLookup e g₁ g₂ []
  rw [hinner]
  rfl

theorem dispatch_congr_obs (f f' : Fsm)
    (hst : f'.state = f.state) (htr : f'.transitions = f.transitions)
    (hsc : f'.onStateChangeListeners = f.onStateChangeListeners)
    (htl : ∀ s' e', f'.transListenersFor s' e' = f.transListenersFor s' e') :
    ∀ ev, (f'.dispatch ev).notifications = (f.dispatch ev).notifications ∧
      (f'.dispatch ev).error = (f.dispatch ev).error ∧
      (f'.dispatch ev).fsm.state = (f.dispatch ev).fsm.state := by
  intro ev
  have hgth : ∀ st et, f'.getTransitionHandler st et = f.getTransitionHandler st et := by
    intro st et
    unfold Fsm.getTransitionHandler
    rw [htr]
  have hmsg : ∀ e₁, f'.invalidTransitionMessage e₁ = f.invalidTransitionMessage e₁ := by
    intro e₁
    unfold Fsm.invalidTransitionMessage
    rw [htr, hst]
  unfold Fsm.dispatch
  simp only [hst, hsc, hgth, hmsg, htl]
  cases f.getTransitionHandler f.state.tag ev.tag with
  | none => exact ⟨rfl, rfl, hst⟩
  | some h => exact ⟨rfl, rfl, rfl⟩

/-- C8: listener registration has set semantics (registering the identical
callback twice has no further effect, so it fires at most once per
dispatch, for both registries); each `onX`'s unsubscribe closure behaves as
the matching `offX` with the same arguments; the `offX` operations are
idempotent; removing an unregistered state-change callback changes nothing
at all, and removing an unregistered transition callback is observationally
a no-op (state, table, both listener collections, and every dispatch's
notifications, error and resulting state are unchanged). -/
theorem listener_registration_algebra (f : Fsm) (i : Nat) (s e : String) :
    ((f.onStateChange i).onStateChange i = f.onStateChange i) ∧
    ((f.onTransition s e i).onTransition s e i = f.onTransition s e i) ∧
    (∀ g : Fsm, unsubscribeStateChange i g = g.offStateChange i) ∧
    (∀ g : Fsm, unsubscribeTransition s e i g = g.offTransition s e i) ∧
    (i ∉ f.onStateChangeListeners → f.offStateChange i = f) ∧
    ((f.offStateChange i).offStateChange i = f.offStateChange i) ∧
    ((f.offTransition s e i).offTransition s e i = f.offTransition s e i) ∧
    (i ∉ f.transListenersFor s e →
      (f.offTransition s e i).state = f.state ∧
      (f.offTransition s e i).transitions = f.transitions ∧
      (f.offTransition s e i).onStateChangeListeners = f.onStateChangeListeners ∧
      (∀ s' e', (f.offTransition s e i).transListenersFor s' e' =
        f.transListenersFor s' e') ∧
      (∀ ev, ((f.offTransition s e i).dispatch ev).notifications =
          (f.dispatch ev).notifications ∧
        ((f.offTransition s e i).dispatch ev).error = (f.dispatch ev).error ∧
        ((f.offTransition s e i).dispatch ev).fsm.state =
          (f.dispatch ev).fsm.state)) := by
  refine ⟨?_, ?_, fun g => rfl, fun g => rfl, ?_, ?_, ?_, ?_⟩
  · show ({ f with onStateChangeListeners :=
        (setAdd (setAdd f.onStateChangeListeners i) i) } : Fsm) =
      { f with onStateChangeListeners := setAdd f.onStateChangeListeners i }
    rw [setAdd_of_mem (setAdd_mem_self f.onStateChangeListeners i)]
  · show (f.modifyTransListeners s e (fun v => setAdd v i)).modifyTransListeners
        s e (fun v => setAdd v i) = f.modifyTransListeners s e (fun v => setAdd v i)
    rw [modify_modify]
    exact congrArg (f.modifyTransListeners s e)
      (funext fun v => setAdd_of_mem (setAdd_mem_self v i))
  · intro hni
    show ({ f with onStateChangeListeners :=
        (setDelete f.onStateChangeListeners i) } : Fsm) = f
    rw [setDelete_of_not_mem hni]
  · show ({ f with onStateChangeListeners :=
        (setDelete (setDelete f.onStateChangeListeners i) i) } : Fsm) =
      { f with onStateChangeListeners := setDelete f.onStateChangeListeners i }
    rw [setDelete_idem]
  · show (f.modifyTransListeners s e (fun v => setDelete v i)).modifyTransListeners
        s e (fun v => setDelete v i) = f.modifyTransListeners s e (fun v => setDelete v i)
    rw [modify_modify]
    exact congrArg (f.modifyTransListeners s e)
      (funext fun v => setDelete_idem v i)
  · intro hni
    have htl : ∀ s' e', (f.offTransition s e i).transListenersFor s' e' =
        f.transListenersFor s' e' := by
      intro s' e'
      by_cases hs : s' = s
      · by_cases he' : e' = e
        · subst hs
          subst he'
          show (f.modifyTransListeners s' e' (fun v => setDelete v i)).transListenersFor
              s' e' = f.transListenersFor s' e'
          rw [modify_transListenersFor_self]
          exact setDelete_of_not_mem hni
        · exact modify_transListenersFor_other f s e s' e' _ (Or.inr he')
      · exact modify_transListenersFor_other f s e s' e' _ (Or.inl hs)
    exact ⟨rfl, rfl, rfl, htl,
      dispatch_congr_obs f (f.offTransition s e i) rfl rfl rfl htl⟩

/-- C8 witness: on the listener-free toggle machine and callback identity 3,
double registration collapses, removing the unregistered callback is a
no-op, and an unregistered transition-callback removal changes no dispatch
notifications. -/
theorem listener_registration_algebra_witness :
    (toggleFsm.onStateChange 3).onStateChange 3 = toggleFsm.onStateChange 3 ∧
    toggleFsm.offStateChange 3 = toggleFsm ∧
    ((toggleFsm.offTransition "off" "switch_on" 3).transListenersFor
      "off" "switch_on" = toggleFsm.transListenersFor "off" "switch_on") ∧
    ((toggleFsm.offTransition "off" "switch_on" 3).dispatch
        switchOnEvent).notifications =
      (toggleFsm.dispatch switchOnEvent).notifications :=
  ⟨(listener_registration_algebra toggleFsm 3 "off" "switch_on").1,
   (listener_registration_algebra toggleFsm 3 "off" "switch_on").2.2.2.2.1
     (by decide),
   ((listener_registration_algebra toggleFsm 3 "off" "switch_on").2.2.2.2.2.2.2
     (by decide)).2.2.2.1 "off" "switch_on",
   (((listener_registration_algebra toggleFsm 3 "off" "switch_on").2.2.2.2.2.2.2
     (by decide)).2.2.2.2 switchOnEvent).1⟩

theorem except_bind_ok {ε α β : Type} (a : α) (g : α → Except ε β) :
    (Except.ok a : Except ε α) >>= g = g a := rfl

/-- C9: in the defensive semantics — where reading a property of an
`undefined` object faults with a `TypeError` — the lookup-based query
operations never fault on any machine (empty transition table included) and
agree with their total models, and `dispatch` is the only fallible
operation: every error it can produce is the invalid-transition `Error`
(never a `TypeError`), it succeeds exactly when the total model records no
error, and there is a machine on which it does fail.  The remaining
operations (`getState`, `getInternalState`, `setInternalState`,
`onStateChange`, `offStateChange`, `onTransition`, `offTransition`,
`clone`) are total functions of the model by construction. -/
theorem operations_total_dispatch_only_fallible (f : Fsm)
    (stateTag eventTag : String) (ev : FsmEvent) :
    f.getTransitionHandlerE stateTag eventTag =
      Except.ok (f.getTransitionHandler stateTag eventTag) ∧
    f.canDispatchE eventTag = Except.ok (f.canDispatch eventTag) ∧
    f.isFinalStateE = Except.ok f.isFinalState ∧
    (∀ err, f.dispatchE ev = Except.error err →
      ∃ msg, err = JsError.invalidTransition msg) ∧
    ((f.dispatchE ev).isOk = true ↔ (f.dispatch ev).error = none) ∧
    (∃ g : Fsm, ∃ e₁ msg, g.dispatchE e₁ =
      Except.error (JsError.invalidTransition msg)) := by
  have hE : ∀ st et, f.getTransitionHandlerE st et =
      Except.ok (f.getTransitionHandler st et) := by
    intro st et
    unfold Fsm.getTransitionHandlerE Fsm.getTransitionHandler
    cases lookupKey f.transitions st with
    | none => rfl
    | some events => rfl
  refine ⟨hE stateTag eventTag, ?_, ?_, ?_, ?_, ?_⟩
  · show (f.getTransitionHandlerE f.state.tag eventTag).bind
        (fun t => pure t.isSome) = _
    rw [hE]
    rfl
  · unfold Fsm.isFinalStateE Fsm.isFinalState
    cases lookupKey f.transitions f.state.tag with
    | none => rfl
    | some events =>
      show Except.ok ((events.map Prod.fst).length == 0) =
        Except.ok (events.length == 0)
      rw [List.length_map]
  · intro err herr
    unfold Fsm.dispatchE at herr
    rw [hE, except_bind_ok] at herr
    cases hh : f.getTransitionHandler f.state.tag ev.tag with
    | none =>
      rw [hh] at herr
      exact ⟨f.invalidTransitionMessage ev, (Except.error.inj herr).symm⟩
    | some h =>
      rw [hh] at herr
      exact Except.noConfusion herr
  · unfold Fsm.dispatchE Fsm.dispatch
    rw [hE, except_bind_ok]
    cases hh : f.getTransitionHandler f.state.tag ev.tag with
    | none => exact ⟨fun hc => absurd hc (by simp [Except.isOk, Except.toBool]), fun hc => by simp at hc⟩
    | some h => exact ⟨fun _ => rfl, fun _ => rfl⟩
  · exact ⟨toggleFsm, switchOffEvent,
      toggleFsm.invalidTransitionMessage switchOffEvent, rfl⟩

/-- C9 witness: on the toggle machine in the `off` state, `dispatchE` of
`switch_off` fails, and the failure is the invalid-transition error. -/
theorem operations_total_dispatch_only_fallible_witness :
    ∃ msg, JsError.invalidTransition
        (toggleFsm.invalidTransitionMessage switchOffEvent) =
      JsError.invalidTransition msg :=
  (operations_total_dispatch_only_fallible toggleFsm "off" "switch_off"
      switchOffEvent).2.2.2.1
    (JsError.invalidTransition (toggleFsm.invalidTransitionMessage switchOffEvent))
    rfl

end WideFsm
